import Mathlib

/-!
Shallow embedding of the animation / interaction core of `src/src/App.tsx`
(a React-three-fiber tarot-card scene) and verification of the frozen claims
about it.

Numbers: the source computes on JavaScript IEEE-754 doubles.  The embedding
idealizes them as exact rationals (`ℚ`) for all state bookkeeping (clock,
mouse, drag, layout), and as exact reals (`ℝ`) where the mathematical
functions `Math.sin` / `Math.PI` appear (the idle-cycle oscillator and the
rotation formulas).  Fallible JavaScript operations (indexing a missing array
element and then dereferencing it) are embedded with `Option` / `Except`.
-/

namespace Cards

/-- Embeds `CardType` (`src/src/App.tsx`): `{ flip: boolean, lift?: number }`.
`lift` is optional in the source (`undefined` until first set), hence `Option ℚ`. -/
structure CardType where
  flip : Bool
  lift : Option ℚ
deriving DecidableEq

/-- Embeds the zustand store state (`src/src/App.tsx`, `useStore`): the card
collection and the focus index. -/
structure Store where
  cards : List CardType
  focus : ℕ
deriving DecidableEq

/-- Embeds `setCards(i)`: calls `setFocus(0)` and replaces the collection with
`i` fresh unflipped cards (`Array(i).map(() => ({ flip: false }))`, so `lift`
is `undefined`).  The previous store contents are discarded. -/
def setCards (i : ℕ) (_s : Store) : Store :=
  { cards := List.replicate i { flip := false, lift := none }, focus := 0 }

/-- Embeds `setFocus(i)`: `set(() => ({ focus: i }))`. -/
def setFocus (i : ℕ) (s : Store) : Store :=
  { s with focus := i }

/-- Embeds the immediate part of `bump(i)`: `cards[i].lift = 4.5`.  In
JavaScript, when index `i` is missing from the array, `cards[i]` is
`undefined` and the property write throws a `TypeError`; that fault is the
`Except.error` case. -/
def bumpNow (i : ℕ) (s : Store) : Except Unit Store :=
  if h : i < s.cards.length then
    .ok { s with cards := s.cards.set i { s.cards[i] with lift := some (9/2) } }
  else .error ()

/-- Embeds the deferred part of `bump(i)` (the `setTimeout` callback scheduled
100 ms later): `cards[i].lift = 0`.  Same fault mode as `bumpNow` when the
index no longer exists. -/
def bumpDeferred (i : ℕ) (s : Store) : Except Unit Store :=
  if h : i < s.cards.length then
    .ok { s with cards := s.cards.set i { s.cards[i] with lift := some 0 } }
  else .error ()

/-- Embeds `flip(i)`: calls `bump(i)` (immediate part) then toggles
`cards[i].flip`.  (The deferred `lift` reset that `bump` schedules is
modelled separately as `bumpDeferred`.) -/
def storeFlip (i : ℕ) (s : Store) : Except Unit Store :=
  match bumpNow i s with
  | .error e => .error e
  | .ok s1 =>
    if h : i < s1.cards.length then
      .ok { s1 with cards := s1.cards.set i { s1.cards[i] with flip := !(s1.cards[i]).flip } }
    else .error ()

/-- Embeds the bounding box obtained from `new THREE.Box3().setFromObject(...)`
in `hoverTilt`; only the extents used there are kept. -/
structure BBox where
  minX : ℚ
  maxX : ℚ
  minY : ℚ
  maxY : ℚ
deriving DecidableEq

/-- Embeds the `MouseRef` interface: normalized pointer position, pointer
position local to the hovered object, and the (optional) hovered object, kept
as its bounding box since `hoverTilt` uses nothing else. -/
structure MouseRef where
  position : ℚ × ℚ
  hoverPosition : ℚ × ℚ
  object : Option BBox
deriving DecidableEq

/-- Embeds the `DragRef` interface: drag position (scene units), velocity
(px/ms), direction signs, the optional dragged index `i`, and the
`dragging` / `dragged` flags. -/
structure DragRef where
  x : ℚ
  y : ℚ
  vX : ℚ
  vY : ℚ
  dX : ℚ
  dY : ℚ
  i : Option ℕ
  dragging : Bool
  dragged : Bool
deriving DecidableEq

/-- Embeds the `clock` ref of `Scene`: tick counter, time of last tick,
ticks-per-second setting, elapsed time, previous frame's elapsed time, and
the accumulated pause offset for the idle cycle. -/
structure Clock where
  tick : ℕ
  lastTick : ℚ
  tps : ℚ
  elapsed : ℚ
  prevElapsed : ℚ
  animOffset : ℚ
deriving DecidableEq

/-- The initial value of the `clock` ref in `Scene` (`tick: 0, lastTick: 0,
tps: 30, elapsed: 0, prevElapsed: 0, animOffset: 0`). -/
def clockInit : Clock :=
  { tick := 0, lastTick := 0, tps := 30, elapsed := 0, prevElapsed := 0, animOffset := 0 }

/-- Embeds `nthDigit(ntn, number)`:
`Number(number.toString().split(".")[1][ntn])`, the `ntn`-th character of the
fractional part of the decimal string of `number`.

Idealization: the runtime value (an IEEE-754 double rendered by
`Number.prototype.toString`) is modelled as an exact real together with its
exact decimal expansion, so the digit is `⌊|number| * 10 ^ (ntn + 1)⌋ % 10`
(the sign character never lands in the fractional part, hence `|number|`).
When `number` is an integer the source string has no decimal point, so
`split(".")[1]` is `undefined` and indexing it throws a `TypeError`; that
fault is the `none` case.  Two formatting artifacts of doubles are outside
this idealization: a fractional part printed with fewer digits than `ntn + 1`
(where the source yields `NaN`, never equal to any digit, while the model
yields the expansion digit) and exponent notation for magnitudes below 1e-6
(where the source faults); theorems below only rely on the model where it
agrees with the source. -/
noncomputable def nthDigit (ntn : ℕ) (number : ℝ) : Option ℤ :=
  if number = (⌊number⌋ : ℝ) then none
  else some (⌊|number| * 10 ^ (ntn + 1)⌋ % 10)

/-- The Euler-order tag `"ZXY"` that `hoverTilt` appends to its result. -/
inductive EulerOrder where
  | ZXY
deriving DecidableEq

/-- Embeds `hoverTilt(baseRotation, mouse)`: if no hovered object is set,
returns the base rotation unchanged (and no Euler-order tag); otherwise
normalizes the hover-local pointer position by the bounding extent on the
side matching its sign and adds a pitch/yaw perturbation of ±5°/±10°
(`THREE.MathUtils.degToRad(d) = d * π / 180`), tagging the result `"ZXY"`. -/
noncomputable def hoverTilt (baseRotation : ℝ × ℝ × ℝ) (mouse : MouseRef) :
    (ℝ × ℝ × ℝ) × Option EulerOrder :=
  match mouse.object with
  | none => (baseRotation, none)
  | some bbox =>
    let mX : ℚ := if mouse.hoverPosition.1 ≥ 0 then mouse.hoverPosition.1 / bbox.maxX
      else -mouse.hoverPosition.1 / bbox.minX
    let mY : ℚ := if mouse.hoverPosition.2 ≥ 0 then mouse.hoverPosition.2 / bbox.maxY
      else -mouse.hoverPosition.2 / bbox.minY
    ((baseRotation.1 + (mY : ℝ) * (5 * Real.pi / 180),
      baseRotation.2.1 + -(mX : ℝ) * (10 * Real.pi / 180),
      baseRotation.2.2), some EulerOrder.ZXY)

/-- Embeds `THREE.MathUtils.clamp(value, min, max)`. -/
def clampQ (value lo hi : ℚ) : ℚ := max lo (min hi value)

/-- Embeds `dragTilt(baseRotation, drag, factor = 1, rangeFactor = 1)`: adds
`velocity * direction * factor` per axis and clamps each axis to
`±0.25 * rangeFactor`. -/
def dragTilt (baseRotation : ℚ × ℚ × ℚ) (drag : DragRef) (factor rangeFactor : ℚ) :
    ℚ × ℚ × ℚ :=
  (clampQ (baseRotation.1 + drag.vY * drag.dY * factor) (-(1/4) * rangeFactor) ((1/4) * rangeFactor),
   clampQ (baseRotation.2.1 + drag.vX * drag.dX * factor) (-(1/4) * rangeFactor) ((1/4) * rangeFactor),
   baseRotation.2.2)

/-- Embeds the spring parameter records `cardSpringConf` and
`cardMovementSpringConf`. -/
structure SpringConf where
  mass : ℚ
  tension : ℚ
  friction : ℚ
  damping : Option ℚ
deriving DecidableEq

/-- `cardSpringConf`: the swooshy default spring. -/
def cardSpringConf : SpringConf :=
  { mass := 10, tension := 300, friction := 85, damping := none }

/-- `cardMovementSpringConf`: the snappier spring for card movement. -/
def cardMovementSpringConf : SpringConf :=
  { mass := 10, tension := 1000, friction := 150, damping := some 500 }

/-- Embeds the `focusCardLayout` constant (position/scale/rotation of the
focused card's slot). -/
structure FocusLayout where
  position : ℚ × ℚ × ℚ
  scale : ℚ × ℚ × ℚ
  rotation : ℚ × ℚ × ℚ
deriving DecidableEq

/-- `focusCardLayout`: `position [0, 1, 0.2]`, `scale 0.75`, `rotation 0`. -/
def focusCardLayout : FocusLayout :=
  { position := (0, 1, 2/10), scale := (3/4, 3/4, 3/4), rotation := (0, 0, 0) }

/-- The `phase` computation inside `cardsLayout(i, focus, cards, hover, mouse)`
(`src/src/App.tsx` lines 184-189), factored out so theorems can speak about
it: `num = cards.length - 1`, `j = i > focus ? i - 1 : i`,
`phase = num === 1 ? 0 : j / (num - 1) - 0.5`.  `len` is `cards.length`;
arithmetic is on JavaScript numbers, embedded as `ℚ`. -/
def cardsLayoutPhase (i focus : ℕ) (len : ℕ) : ℚ :=
  let num : ℚ := (len : ℚ) - 1
  let j : ℚ := if i > focus then (i : ℚ) - 1 else (i : ℚ)
  if num = 1 then 0 else j / (num - 1) - 1/2

/-- The record returned by `cardsLayout`. -/
structure CardLayout where
  scale : ℚ × ℚ × ℚ
  position : ℚ × ℚ × ℚ
  rotation : (ℝ × ℝ × ℝ) × Option EulerOrder
  config : SpringConf

/-- Embeds `cardsLayout(i, focus, cards, hover, mouse)`: layout of the
non-focused cards.  `hover[i]` on a missing index is `undefined` (falsy),
embedded by `List.getD`. -/
noncomputable def cardsLayout (i focus : ℕ) (cards : List CardType) (hover : List Bool)
    (mouse : MouseRef) : CardLayout :=
  let num : ℚ := (cards.length : ℚ) - 1
  let height : ℚ := num * (5/100)
  let width : ℚ := num * (6/10)
  let tilt : ℚ := num * (5/1000)
  let phase : ℚ := cardsLayoutPhase i focus cards.length
  { scale := (2/5, 2/5, 2/5),
    position := (phase * width,
      -(9/4) - |phase * height| + (if hover.getD i false then 1/10 else 0),
      phase * (1/100) + (if hover.getD i false then 2/10 else 0)),
    rotation := if hover.getD i false then
        hoverTilt (0, 0, -(phase : ℝ) * Real.pi * (tilt : ℝ)) mouse
      else ((0, 0, -(phase : ℝ) * Real.pi * (tilt : ℝ)), none),
    config := cardMovementSpringConf }

/-- The mutable scene state read and written by the gesture handlers of
`Scene`: the store, the `hover` flag array, and the `mouse` / `drag` refs. -/
structure SceneState where
  store : Store
  hover : List Bool
  mouse : MouseRef
  drag : DragRef
deriving DecidableEq

/-- Embeds `array.splice(i, 1, x)` as used on the `hover` arrays: replaces the
element at `i` when `i` is in range; JavaScript clamps a start index past the
end to the array length, so the element is appended there. -/
def spliceSet (l : List Bool) (i : ℕ) (x : Bool) : List Bool :=
  if i < l.length then l.set i x else l ++ [x]

/-- Embeds the `onDragStart({ args: [i] })` gesture handler: sets
`drag.i = i`, `drag.dragging = true`, `drag.dragged = true`. -/
def onDragStart (i : ℕ) (s : SceneState) : SceneState :=
  { s with drag := { s.drag with i := some i, dragging := true, dragged := true } }

/-- Embeds the `onDrag` gesture handler (drag-move): records the event point
(scene units) and the gesture velocity/direction into the drag ref.  The
dragged index is deliberately not updated (the source comments that doing so
would "hot swap" drag objects). -/
def onDrag (px py vX vY dX dY : ℚ) (s : SceneState) : SceneState :=
  { s with drag := { s.drag with x := px, y := py, vX := vX, vY := vY, dX := dX, dY := dY } }

/-- JavaScript truthiness of `drag.current.i` (a `number | undefined`):
`undefined` is falsy and so is the number `0`. -/
def jsTruthyIndex (o : Option ℕ) : Bool :=
  match o with
  | none => false
  | some n => decide (n ≠ 0)

/-- Embeds the `onDragEnd({ args: [i] })` gesture handler:
`if (drag.current.i && mouse.current.position.y > -0.3) setFocus(drag.current.i)`,
then `drag.current.dragging = false; drag.current.i = undefined`.  The guard
is JavaScript truthiness on `drag.current.i`, so a dragged index of `0` never
reassigns focus (see `jsTruthyIndex`). -/
def onDragEnd (s : SceneState) : SceneState :=
  let s1 := if jsTruthyIndex s.drag.i = true ∧ s.mouse.position.2 > -(3/10) then
      { s with store := setFocus (s.drag.i.getD 0) s.store }
    else s
  { s1 with drag := { s1.drag with dragging := false, i := none } }

/-- Embeds the `onMove({ event })` gesture handler: records the hover-local
pointer position and the intersected object (kept as its bounding box). -/
def onMove (px py : ℚ) (obj : Option BBox) (s : SceneState) : SceneState :=
  { s with mouse := { s.mouse with hoverPosition := (px, py), object := obj } }

/-- Embeds the React `onClick` handler bound per card index `i`:
if `drag.current.dragged` it only clears that flag and returns; otherwise it
flips the focused card (when `focus === i`) or sets focus to `i`, then clears
all hover flags.  `flip` can fault on a missing index (see `storeFlip`),
hence `Except`. -/
def onClick (i : ℕ) (s : SceneState) : Except Unit SceneState :=
  if s.drag.dragged = true then
    .ok { s with drag := { s.drag with dragged := false } }
  else
    match (if s.store.focus = i then storeFlip s.store.focus s.store
      else pure (setFocus i s.store)) with
    | .error e => .error e
    | .ok store1 => .ok { s with store := store1, hover := s.hover.map (fun _ => false) }

/-- Embeds the React `onPointerOver` handler for index `i`:
`n = [...hover.map(x => false)]; n.splice(i, 1, true); setHover(n)`. -/
def onPointerOver (i : ℕ) (s : SceneState) : SceneState :=
  { s with hover := spliceSet (s.hover.map (fun _ => false)) i true }

/-- Embeds the React `onPointerOut` handler for index `i`:
`n = [...hover]; n.splice(i, 1, false); setHover(n)`. -/
def onPointerOut (i : ℕ) (s : SceneState) : SceneState :=
  { s with hover := spliceSet s.hover i false }

/-- Embeds the hover-rebuild effect `setHover(Array(cards.length))` that runs
whenever the card collection changes: a fresh array of holes, every entry
`undefined` and hence falsy, embedded as all-`false`. -/
def hoverRebuild (cards : List CardType) : List Bool :=
  List.replicate cards.length false

/-- The idle-cycle oscillation of the `useFrame` callback:
`cycle = Math.sin((c.elapsed - c.animOffset) * speed)` with `speed = 0.33`. -/
noncomputable def cycleAt (elapsed animOffset : ℝ) : ℝ :=
  Real.sin ((elapsed - animOffset) * (33/100))

/-- The flip-trigger condition of the `useFrame` callback (lines 449-456 of
`src/src/App.tsx`): with `cycle = cycleAt elapsed animOffset` and
`prevCycle = cycleAt prevElapsed animOffset`, flip the focused card when
`elapsed > 5 && cycle > 0 && nthDigit(0, cycle) === 9` and
`nthDigit(1, cycle) === 1 && nthDigit(1, prevCycle) === 0`. -/
def flipFires (elapsed prevElapsed animOffset : ℝ) : Prop :=
  5 < elapsed ∧ 0 < cycleAt elapsed animOffset ∧
  nthDigit 0 (cycleAt elapsed animOffset) = some 9 ∧
  nthDigit 1 (cycleAt elapsed animOffset) = some 1 ∧
  nthDigit 1 (cycleAt prevElapsed animOffset) = some 0

/-- The spring target written for the focused card by the idle-cycle branch:
position `[cycle, 1 + sin(elapsed*2)*0.025, 0.2 + |cycle*0.25|]` and rotation
`[0, cycle * -π * 0.05, 0]`. -/
noncomputable def idleFocusTarget (c : Clock) : (ℝ × ℝ × ℝ) × (ℝ × ℝ × ℝ) :=
  let cycle := cycleAt (c.elapsed : ℝ) (c.animOffset : ℝ)
  ((cycle * 1, 1 + Real.sin ((c.elapsed : ℝ) * 2) * (25/1000), 2/10 + |cycle * (25/100)|),
   (0, cycle * (-Real.pi) * (5/100), 0))

/-- The per-frame inputs the `useFrame` callback reads from the renderer:
`state.clock.getElapsedTime()`, the `tps` control value, `state.mouse`, and
`state.viewport`. -/
structure FrameInput where
  t : ℚ
  tpsConf : ℚ
  mouseX : ℚ
  mouseY : ℚ
  viewportW : ℚ
  viewportH : ℚ
deriving DecidableEq

/-- The observable effects of one run of the `useFrame` callback: the updated
clock and mouse refs, whether the frame was cut off by the tick gate, and
which spring-target writes it performed.  `dragWrite` carries the dragged
card's index, position and rotation (all rational); the remaining writes are
recorded as flags (their payloads are `cardsLayout`, `hoverTilt` and
`idleFocusTarget`, which carry real-valued rotations). -/
structure FrameResult where
  clock : Clock
  mouse : MouseRef
  gated : Bool
  dragWrite : Option (ℕ × (ℚ × ℚ × ℚ) × (ℚ × ℚ × ℚ))
  hoverFocusWrite : Bool
  paused : Bool
  idleFocusWrite : Bool
  otherLayoutWrite : Bool
deriving DecidableEq

/-- The pause condition of the `useFrame` callback (line 438):
`focus === drag.current.i || hover[focus]`.  `focus === undefined` is false,
and `hover[focus]` on a missing index is falsy. -/
def pausedCond (focus : ℕ) (hover : List Bool) (drag : DragRef) : Bool :=
  decide (drag.i = some focus) || hover.getD focus false

/-- The clock update at the top of the `useFrame` callback (lines 386-390):
`c.prevElapsed = c.elapsed; c.elapsed = t; c.tps = tps`. -/
def clockFrameUpdate (inp : FrameInput) (c : Clock) : Clock :=
  { c with prevElapsed := c.elapsed, elapsed := inp.t, tps := inp.tpsConf }

/-- The tick counting of the `useFrame` callback (lines 396-400):
`if (t - c.lastTick > c.tps) { c.lastTick = t; c.tick++ }`.  Note the source
compares against `c.tps` itself, not `1 / c.tps`. -/
def clockTickCount (inp : FrameInput) (c : Clock) : Clock :=
  if inp.t - c.lastTick > c.tps then { c with lastTick := inp.t, tick := c.tick + 1 } else c

/-- Embeds the `useFrame` callback (lines 381-488 of `src/src/App.tsx`),
frame by frame.  In order: update the clock (`clockFrameUpdate`) and the
mouse position; advance `lastTick`/`tick` (`clockTickCount`); return early
unless `elapsed - lastTick >= 1 / tps`; while dragging, write the dragged
card's target from the pointer projected by the viewport at depth 1 with
`dragTilt` rotation; otherwise, when the focused card is hovered, write its
hover-tilt target (and layouts for the rest); when
`focus === drag.i || hover[focus]`, accumulate
`animOffset += elapsed - prevElapsed`, else run the idle cycle (flip trigger
and focus-card target, see `frameFlipFires` and `idleFocusTarget`); finally,
when not dragging, write `cardsLayout` targets for the non-focused cards. -/
def frameStep (inp : FrameInput) (focus : ℕ) (cards : List CardType) (hover : List Bool)
    (drag : DragRef) (mouse : MouseRef) (c : Clock) : FrameResult :=
  let m1 : MouseRef := { mouse with position := (inp.mouseX, inp.mouseY) }
  let c2 : Clock := clockTickCount inp (clockFrameUpdate inp c)
  if ¬ (c2.elapsed - c2.lastTick ≥ 1 / c2.tps) then
    { clock := c2, mouse := m1, gated := true, dragWrite := none, hoverFocusWrite := false,
      paused := false, idleFocusWrite := false, otherLayoutWrite := false }
  else
    let dragWrite : Option (ℕ × (ℚ × ℚ × ℚ) × (ℚ × ℚ × ℚ)) :=
      if drag.dragging = true then
        match drag.i with
        | some k =>
          if k < cards.length then
            some (k, ((inp.mouseX * inp.viewportW) / 3, (inp.mouseY * inp.viewportH) / 3, 1),
              dragTilt (0, 0, 0) drag 1 1)
          else none
        | none => none
      else none
    let hoverFocusWrite : Bool := !drag.dragging && hover.getD focus false
    let paused : Bool := pausedCond focus hover drag
    let c3 : Clock :=
      if paused = true then { c2 with animOffset := c2.animOffset + (c2.elapsed - c2.prevElapsed) }
      else c2
    let idleFocusWrite : Bool := !paused && decide (focus < cards.length)
    let otherLayoutWrite : Bool := !drag.dragging
    { clock := c3, mouse := m1, gated := false, dragWrite := dragWrite,
      hoverFocusWrite := hoverFocusWrite, paused := paused, idleFocusWrite := idleFocusWrite,
      otherLayoutWrite := otherLayoutWrite }

/-- Whether a run of the `useFrame` callback invokes `flip(focus)`: the frame
must pass the tick gate, must not be paused, and the digit-based trigger
condition `flipFires` must hold on the clock values of that frame (the clock
returned by `frameStep` equals the mid-frame clock `c2` exactly when the
frame is not paused). -/
def frameFlipFires (inp : FrameInput) (focus : ℕ) (cards : List CardType) (hover : List Bool)
    (drag : DragRef) (mouse : MouseRef) (c : Clock) : Prop :=
  let r := frameStep inp focus cards hover drag mouse c
  r.gated = false ∧ r.paused = false ∧
  flipFires (r.clock.elapsed : ℝ) (r.clock.prevElapsed : ℝ) (r.clock.animOffset : ℝ)

/-- The per-frame environment of the callback: the frame input together with
the scene state it closes over. -/
structure FrameEnv where
  inp : FrameInput
  focus : ℕ
  cards : List CardType
  hover : List Bool
  drag : DragRef
  mouse : MouseRef
deriving DecidableEq

/-- One frame's effect on the clock ref. -/
def stepClock (c : Clock) (e : FrameEnv) : Clock :=
  (frameStep e.inp e.focus e.cards e.hover e.drag e.mouse c).clock

/-- The clock after running the callback over a sequence of frames. -/
def runClock (c : Clock) (envs : List FrameEnv) : Clock :=
  envs.foldl stepClock c

/-- The frame times of a sequence are monotone with respect to the clock:
each frame's `t` is at least the elapsed time already recorded (the renderer
clock `getElapsedTime` never runs backwards). -/
def ValidTimes : Clock → List FrameEnv → Prop
  | _, [] => True
  | c, e :: rest => c.elapsed ≤ e.inp.t ∧ ValidTimes (stepClock c e) rest

/-- At most one hover flag is set. -/
def atMostOneHover (l : List Bool) : Prop := l.count true ≤ 1

/-! Concrete states used to evaluate the code on specific inputs. -/

/-- A frame input at time `t` with the default `tps` control value 30 and a
unit viewport. -/
def inpAt (t : ℚ) : FrameInput :=
  { t := t, tpsConf := 30, mouseX := 0, mouseY := 0, viewportW := 1, viewportH := 1 }

/-- A drag ref with no drag in progress. -/
def dragIdle : DragRef :=
  { x := 0, y := 0, vX := 0, vY := 0, dX := 0, dY := 0, i := none, dragging := false,
    dragged := false }

/-- A mouse ref at the origin with no hovered object. -/
def mouseInit : MouseRef := { position := (0, 0), hoverPosition := (0, 0), object := none }

/-- Four fresh cards, as produced by `setCards 4`. -/
def cards4 : List CardType := List.replicate 4 { flip := false, lift := none }

/-- A scene state in the middle of a drag of card index 0 with focus on card
1 and the pointer at normalized height `-0.29` (above the drop threshold). -/
def dragZeroState : SceneState :=
  { store := { cards := cards4, focus := 1 },
    hover := [false, false, false, false],
    mouse := { position := (0, -(29/100)), hoverPosition := (0, 0), object := none },
    drag := { x := 0, y := 0, vX := 0, vY := 0, dX := 0, dY := 0,
              i := some 0, dragging := true, dragged := true } }

/-- The same situation but dragging card index 2 with focus on card 1. -/
def dragTwoState : SceneState :=
  { dragZeroState with
    drag := { dragZeroState.drag with i := some 2 } }

/-- A scene state right after a drag release (the `dragged` flag still set),
with card 1 hovered. -/
def clickAfterDragState : SceneState :=
  { store := { cards := cards4, focus := 0 },
    hover := [false, true, false, false],
    mouse := mouseInit,
    drag := { dragIdle with dragged := true } }

/-- A scene state with four cards and no hover, used to instantiate the
hover-invariant theorem. -/
def hoverWitnessState : SceneState :=
  { store := { cards := cards4, focus := 0 },
    hover := [false, false, false, false],
    mouse := mouseInit,
    drag := dragIdle }

lemma count_true_replicate (n : ℕ) : (List.replicate n false).count true = 0 := by
  simp [List.count_replicate]

lemma count_true_set_true (n i : ℕ) (hi : i < n) :
    ((List.replicate n false).set i true).count true = 1 := by
  rw [List.count_set _ _ _ _ (by simpa using hi)]
  simp [List.count_replicate]

lemma count_true_set_false_le (l : List Bool) (i : ℕ) (hi : i < l.length) :
    ((l.set i false).count true) ≤ l.count true := by
  rw [List.count_set _ _ _ _ hi]
  simp only [show ((false == true) = true) = False by simp, if_false]
  split <;> omega

/-!  Claim theorems.  -/

/-- C1: the source guard on drag-end is `drag.current.i && mouse.y > -0.3`,
JavaScript truthiness, so for the dragged index 0 — which the claim includes
via "any index i with 0 <= i < cardCount" — focus is never reassigned even
with the pointer above the drop threshold (normalized y = -0.29 > -0.3).
This theorem evaluates the drag-end handler at that failing input: focus
stays 1 instead of moving to 0, while `dragging` and the target index are,
as the claim says, reset.  For contrast, the same drop with dragged index 2
does reassign focus to 2. -/
theorem dragEnd_skips_focus_reassignment_for_index_zero :
    (onDragEnd dragZeroState).store.focus = 1 ∧
    (onDragEnd dragZeroState).drag.dragging = false ∧
    (onDragEnd dragZeroState).drag.i = none ∧
    (onDragEnd dragTwoState).store.focus = 2 := by
  norm_num [onDragEnd, dragZeroState, dragTwoState, cards4, jsTruthyIndex, setFocus]

/-- C2: the tick gate does not enforce a minimum spacing of `1/tps` between
gate-passing frames.  `lastTick` only advances when `t - lastTick > c.tps`
(i.e. every 30 seconds at `tps = 30`) rather than every `1/tps` seconds, so
from the initial clock the two consecutive frames at `t = 0.04 s` and
`t = 0.05 s` — only `0.01 s < 1/30 s` apart — both pass the gate and both
perform layout writes. -/
theorem tick_gate_passes_frames_closer_than_tick_period :
    (frameStep (inpAt (1/25)) 0 cards4 [false, false, false, false] dragIdle mouseInit
        clockInit).gated = false ∧
    (frameStep (inpAt (1/25)) 0 cards4 [false, false, false, false] dragIdle mouseInit
        clockInit).otherLayoutWrite = true ∧
    (frameStep (inpAt (1/20)) 0 cards4 [false, false, false, false] dragIdle mouseInit
      (frameStep (inpAt (1/25)) 0 cards4 [false, false, false, false] dragIdle mouseInit
        clockInit).clock).gated = false ∧
    (frameStep (inpAt (1/20)) 0 cards4 [false, false, false, false] dragIdle mouseInit
      (frameStep (inpAt (1/25)) 0 cards4 [false, false, false, false] dragIdle mouseInit
        clockInit).clock).otherLayoutWrite = true ∧
    (1/20 - 1/25 : ℚ) < 1/30 := by
  have h1 : (frameStep (inpAt (1/25)) 0 cards4 [false, false, false, false] dragIdle mouseInit
      clockInit).clock =
      { tick := 0, lastTick := 0, tps := 30, elapsed := 1/25, prevElapsed := 0,
        animOffset := 0 } := by
    norm_num [frameStep, clockTickCount, clockFrameUpdate, inpAt, clockInit, dragIdle, pausedCond]
    simp
  rw [h1]
  norm_num [frameStep, clockTickCount, clockFrameUpdate, inpAt, clockInit, dragIdle, mouseInit, pausedCond]

/-- C4: the deferred `lift`-reset scheduled by `bump(i)` is not a safe no-op
when index `i` has been removed before it fires: `cards[i]` is `undefined`
and `cards[i].lift = 0` throws a `TypeError`.  Evaluation at the failing
input: `bump(3)` succeeds on a 4-card store, the collection is then replaced
by `setCards(2)`, and the deferred callback faults instead of no-opping. -/
theorem bump_deferred_faults_on_removed_index :
    bumpNow 3 (setCards 4 { cards := [], focus := 0 }) =
      Except.ok { cards := [{ flip := false, lift := none }, { flip := false, lift := none },
        { flip := false, lift := none }, { flip := false, lift := some (9/2) }], focus := 0 } ∧
    bumpDeferred 3 (setCards 2 { cards := [], focus := 0 }) = Except.error () := by
  constructor
  · norm_num [bumpNow, setCards, List.replicate, List.set]
  · norm_num [bumpDeferred, setCards]

/-- C9: across `drag-start → drag-move → drag-end → click`, the `dragged`
flag is set at drag-start and survives through drag-end, and the click that
follows only clears it: the resulting state is exactly the pre-click state
with `dragged := false` (so focus is not reassigned, no card is flipped, and
hover flags are untouched). -/
theorem drag_then_click_only_clears_dragged (s : SceneState) (i j : ℕ)
    (px py vX vY dX dY : ℚ) :
    (onDragStart i s).drag.dragged = true ∧
    (onDrag px py vX vY dX dY (onDragStart i s)).drag.dragged = true ∧
    (onDragEnd (onDrag px py vX vY dX dY (onDragStart i s))).drag.dragged = true ∧
    onClick j (onDragEnd (onDrag px py vX vY dX dY (onDragStart i s))) =
      Except.ok { onDragEnd (onDrag px py vX vY dX dY (onDragStart i s)) with
        drag := { (onDragEnd (onDrag px py vX vY dX dY (onDragStart i s))).drag with
          dragged := false } } := by
  refine ⟨rfl, rfl, ?_, ?_⟩
  · unfold onDragEnd
    split <;> rfl
  · have hd : (onDragEnd (onDrag px py vX vY dX dY (onDragStart i s))).drag.dragged = true := by
      unfold onDragEnd
      split <;> rfl
    unfold onClick
    rw [if_pos hd]

/-- C10 (counterexample): the claim says the click handler "sets all flags to
false", but when the click consumes a preceding drag (`dragged = true`) it
returns before `setHover`: here card 1 stays hovered after the click, so the
hover sequence still has a `true` entry, unlike the all-false rebuild. -/
theorem click_after_drag_leaves_hover :
    (onClick 0 clickAfterDragState).toOption.map SceneState.hover =
      some [false, true, false, false] ∧
    ([false, true, false, false].count true ≠ (hoverRebuild cards4).count true) := by
  constructor
  · rfl
  · simp [hoverRebuild, cards4, List.count_replicate]

/-- C10 (amended): every hover-flag handler preserves the at-most-one-hovered
invariant: pointer-over on an in-range index `i` yields exactly index `i`
true; pointer-out on `i` sets only index `i` to false; a click clears all
flags when it is not consuming a drag (`dragged = false`), and otherwise
leaves them unchanged (still at most one); rebuilding on a card-collection
change yields a sequence with no true entries. -/
theorem hover_handlers_preserve_at_most_one (s : SceneState) (i j : ℕ) (cards : List CardType)
    (hi : i < s.hover.length) (hinv : atMostOneHover s.hover) :
    ((onPointerOver i s).hover = (List.replicate s.hover.length false).set i true ∧
      (onPointerOver i s).hover.count true = 1) ∧
    ((onPointerOut i s).hover = s.hover.set i false ∧ atMostOneHover (onPointerOut i s).hover) ∧
    (∀ s2, onClick j s = Except.ok s2 → atMostOneHover s2.hover ∧
      (s.drag.dragged = false → s2.hover = List.replicate s.hover.length false)) ∧
    (hoverRebuild cards = List.replicate cards.length false ∧
      atMostOneHover (hoverRebuild cards)) := by
  have hover_eq : (onPointerOver i s).hover = (List.replicate s.hover.length false).set i true := by
    simp only [onPointerOver, spliceSet]
    rw [if_pos (by simpa using hi)]
    congr 1
    simp [List.map_const']
  refine ⟨⟨hover_eq, ?_⟩, ⟨?_, ?_⟩, ?_, ?_, ?_⟩
  · rw [hover_eq]; exact count_true_set_true _ _ hi
  · simp only [onPointerOut, spliceSet]
    rw [if_pos hi]
  · simp only [onPointerOut, spliceSet]
    rw [if_pos hi]
    exact le_trans (count_true_set_false_le _ _ hi) hinv
  · intro s2 hs2
    unfold onClick at hs2
    by_cases hd : s.drag.dragged = true
    · rw [if_pos hd] at hs2
      cases hs2
      exact ⟨hinv, fun hfalse => by rw [hd] at hfalse; cases hfalse⟩
    · rw [if_neg hd] at hs2
      have hh : s2.hover = s.hover.map (fun _ => false) := by
        rcases hfs : (if s.store.focus = j then storeFlip s.store.focus s.store
          else pure (setFocus j s.store)) with e | st
        · rw [hfs] at hs2; cases hs2
        · rw [hfs] at hs2
          cases hs2
          rfl
      refine ⟨?_, fun _ => by rw [hh]; simp [List.map_const']⟩
      rw [hh]
      simp [atMostOneHover, List.map_const', List.count_replicate]
  · rfl
  · simp [atMostOneHover, hoverRebuild, List.count_replicate]

/-- C10 (witness): the invariant theorem evaluated on a concrete four-card
scene: pointer-over on index 0 leaves exactly one flag set, and the rebuilt
hover array satisfies the invariant. -/
theorem hover_handlers_witness :
    (onPointerOver 0 hoverWitnessState).hover.count true = 1 ∧
    atMostOneHover (hoverRebuild cards4) := by
  have h := hover_handlers_preserve_at_most_one hoverWitnessState 0 0 cards4
    (by simp [hoverWitnessState]) (by simp [atMostOneHover, hoverWitnessState])
  exact ⟨h.1.2, h.2.2.2.2⟩

/-- C8: in the non-focused layout, `phase` is 0 exactly when one non-focused
card remains (`num = 1`, i.e. `cardCount = 2`), and otherwise equals
`j/(num-1) - 0.5` with a nonzero divisor, always lying in `[-0.5, 0.5]`;
for `cardCount = 5`, `focus = 2`, the phases of indices 0, 1, 3, 4 are
symmetric around 0 and strictly increasing in index order. -/
theorem cardsLayout_phase_spec (n focus i : ℕ) (hn : 2 ≤ n) (hf : focus < n) (hi : i < n)
    (hne : i ≠ focus) :
    (n = 2 → cardsLayoutPhase i focus n = 0) ∧
    (n ≠ 2 → ((n : ℚ) - 1) - 1 ≠ 0 ∧
      cardsLayoutPhase i focus n =
        (if i > focus then (i : ℚ) - 1 else (i : ℚ)) / (((n : ℚ) - 1) - 1) - 1/2) ∧
    -(1/2) ≤ cardsLayoutPhase i focus n ∧ cardsLayoutPhase i focus n ≤ 1/2 ∧
    (cardsLayoutPhase 0 2 5 = -(1/2) ∧ cardsLayoutPhase 1 2 5 = -(1/6) ∧
      cardsLayoutPhase 3 2 5 = 1/6 ∧ cardsLayoutPhase 4 2 5 = 1/2 ∧
      cardsLayoutPhase 0 2 5 = -cardsLayoutPhase 4 2 5 ∧
      cardsLayoutPhase 1 2 5 = -cardsLayoutPhase 3 2 5 ∧
      cardsLayoutPhase 0 2 5 < cardsLayoutPhase 1 2 5 ∧
      cardsLayoutPhase 1 2 5 < cardsLayoutPhase 3 2 5 ∧
      cardsLayoutPhase 3 2 5 < cardsLayoutPhase 4 2 5) := by
  have hconc : cardsLayoutPhase 0 2 5 = -(1/2) ∧ cardsLayoutPhase 1 2 5 = -(1/6) ∧
      cardsLayoutPhase 3 2 5 = 1/6 ∧ cardsLayoutPhase 4 2 5 = 1/2 := by
    refine ⟨?_, ?_, ?_, ?_⟩ <;> norm_num [cardsLayoutPhase]
  by_cases hn2 : n = 2
  · subst hn2
    have hfi : cardsLayoutPhase i focus 2 = 0 := by
      norm_num [cardsLayoutPhase]
    refine ⟨fun _ => hfi, fun h => absurd rfl h, by rw [hfi]; norm_num, by rw [hfi]; norm_num,
      hconc.1, hconc.2.1, hconc.2.2.1, hconc.2.2.2, ?_, ?_, ?_, ?_, ?_⟩ <;>
      simp only [hconc.1, hconc.2.1, hconc.2.2.1, hconc.2.2.2] <;> norm_num
  · have hn3 : 3 ≤ n := by omega
    have hcast3 : (3 : ℚ) ≤ (n : ℚ) := by exact_mod_cast hn3
    have hnum_ne : ((n : ℚ) - 1) ≠ 1 := by
      intro h
      have : (n : ℚ) = 2 := by linarith
      have : n = 2 := by exact_mod_cast this
      exact hn2 this
    have hd : (0 : ℚ) < ((n : ℚ) - 1) - 1 := by linarith
    have hphase : cardsLayoutPhase i focus n =
        (if i > focus then (i : ℚ) - 1 else (i : ℚ)) / (((n : ℚ) - 1) - 1) - 1/2 := by
      rw [cardsLayoutPhase]
      rw [if_neg hnum_ne]
    have hj0 : (0 : ℚ) ≤ (if i > focus then (i : ℚ) - 1 else (i : ℚ)) := by
      split
      · have : 1 ≤ i := by omega
        have : (1 : ℚ) ≤ (i : ℚ) := by exact_mod_cast this
        linarith
      · positivity
    have hjle : (if i > focus then (i : ℚ) - 1 else (i : ℚ)) ≤ ((n : ℚ) - 1) - 1 := by
      split
      · rename_i hgt
        have : i ≤ n - 1 := by omega
        have hq : (i : ℚ) ≤ (n : ℚ) - 1 := by
          have : i + 1 ≤ n := by omega
          have := (Nat.cast_le (α := ℚ)).mpr this
          push_cast at this
          linarith
        linarith
      · rename_i hngt
        have : i + 2 ≤ n := by omega
        have := (Nat.cast_le (α := ℚ)).mpr this
        push_cast at this
        linarith
    have hdiv0 : (0 : ℚ) ≤ (if i > focus then (i : ℚ) - 1 else (i : ℚ)) / (((n : ℚ) - 1) - 1) :=
      div_nonneg hj0 (le_of_lt hd)
    have hdiv1 : (if i > focus then (i : ℚ) - 1 else (i : ℚ)) / (((n : ℚ) - 1) - 1) ≤ 1 :=
      (div_le_one hd).mpr hjle
    refine ⟨fun h => absurd h hn2, fun _ => ⟨ne_of_gt hd, hphase⟩, ?_, ?_,
      hconc.1, hconc.2.1, hconc.2.2.1, hconc.2.2.2, ?_, ?_, ?_, ?_, ?_⟩
    · rw [hphase]; linarith
    · rw [hphase]; linarith
    all_goals simp only [hconc.1, hconc.2.1, hconc.2.2.1, hconc.2.2.2] <;> norm_num

/-- C8 (witness): the phase theorem evaluated at `cardCount = 5`,
`focus = 2`, `i = 0`. -/
theorem cardsLayout_phase_witness :
    -(1/2) ≤ cardsLayoutPhase 0 2 5 ∧ cardsLayoutPhase 0 2 5 ≤ 1/2 ∧
    cardsLayoutPhase 0 2 5 < cardsLayoutPhase 1 2 5 := by
  have h := cardsLayout_phase_spec 5 2 0 (by norm_num) (by norm_num) (by norm_num) (by norm_num)
  exact ⟨h.2.2.1, h.2.2.2.1, h.2.2.2.2.2.2.2.2.2.2.1⟩

lemma clockFrameUpdate_fields (inp : FrameInput) (c : Clock) :
    (clockFrameUpdate inp c).elapsed = inp.t ∧
    (clockFrameUpdate inp c).prevElapsed = c.elapsed ∧
    (clockFrameUpdate inp c).animOffset = c.animOffset := by
  simp [clockFrameUpdate]

lemma clockTickCount_fields (inp : FrameInput) (c : Clock) :
    (clockTickCount inp c).elapsed = c.elapsed ∧
    (clockTickCount inp c).prevElapsed = c.prevElapsed ∧
    (clockTickCount inp c).animOffset = c.animOffset := by
  unfold clockTickCount
  split <;> simp

lemma stepClock_core (e : FrameEnv) (c : Clock) :
    stepClock c e =
      (if ¬ ((clockTickCount e.inp (clockFrameUpdate e.inp c)).elapsed -
              (clockTickCount e.inp (clockFrameUpdate e.inp c)).lastTick ≥
              1 / (clockTickCount e.inp (clockFrameUpdate e.inp c)).tps) then
         clockTickCount e.inp (clockFrameUpdate e.inp c)
       else if pausedCond e.focus e.hover e.drag = true then
         { clockTickCount e.inp (clockFrameUpdate e.inp c) with
           animOffset := (clockTickCount e.inp (clockFrameUpdate e.inp c)).animOffset +
             ((clockTickCount e.inp (clockFrameUpdate e.inp c)).elapsed -
              (clockTickCount e.inp (clockFrameUpdate e.inp c)).prevElapsed) }
       else clockTickCount e.inp (clockFrameUpdate e.inp c)) := by
  unfold stepClock frameStep
  by_cases hg : ¬ ((clockTickCount e.inp (clockFrameUpdate e.inp c)).elapsed -
      (clockTickCount e.inp (clockFrameUpdate e.inp c)).lastTick ≥
      1 / (clockTickCount e.inp (clockFrameUpdate e.inp c)).tps)
  · simp only [if_pos hg]
  · simp only [if_neg hg]

lemma frameStep_gated_of_gate_closed (e : FrameEnv) (c : Clock)
    (hg : ¬ ((clockTickCount e.inp (clockFrameUpdate e.inp c)).elapsed -
      (clockTickCount e.inp (clockFrameUpdate e.inp c)).lastTick ≥
      1 / (clockTickCount e.inp (clockFrameUpdate e.inp c)).tps)) :
    (frameStep e.inp e.focus e.cards e.hover e.drag e.mouse c).gated = true := by
  unfold frameStep
  rw [if_pos hg]

lemma stepClock_animOffset (e : FrameEnv) (c : Clock) (ht : c.elapsed ≤ e.inp.t) :
    c.animOffset ≤ (stepClock c e).animOffset ∧
    ((stepClock c e).animOffset ≠ c.animOffset →
      pausedCond e.focus e.hover e.drag = true ∧
      (stepClock c e).animOffset =
        c.animOffset + ((stepClock c e).elapsed - (stepClock c e).prevElapsed)) ∧
    (pausedCond e.focus e.hover e.drag = true →
      (frameStep e.inp e.focus e.cards e.hover e.drag e.mouse c).gated = false →
      (stepClock c e).elapsed - (stepClock c e).animOffset = c.elapsed - c.animOffset) := by
  have h1 := clockFrameUpdate_fields e.inp c
  have h2 := clockTickCount_fields e.inp (clockFrameUpdate e.inp c)
  have hq1 : (clockTickCount e.inp (clockFrameUpdate e.inp c)).elapsed = e.inp.t := by
    rw [h2.1, h1.1]
  have hq2 : (clockTickCount e.inp (clockFrameUpdate e.inp c)).prevElapsed = c.elapsed := by
    rw [h2.2.1, h1.2.1]
  have hq3 : (clockTickCount e.inp (clockFrameUpdate e.inp c)).animOffset = c.animOffset := by
    rw [h2.2.2, h1.2.2]
  rw [stepClock_core]
  by_cases hg : ¬ ((clockTickCount e.inp (clockFrameUpdate e.inp c)).elapsed -
      (clockTickCount e.inp (clockFrameUpdate e.inp c)).lastTick ≥
      1 / (clockTickCount e.inp (clockFrameUpdate e.inp c)).tps)
  · rw [if_pos hg]
    simp only [hq1, hq2, hq3]
    refine ⟨le_refl _, fun hne => absurd rfl hne, fun hpc hgf => ?_⟩
    rw [frameStep_gated_of_gate_closed e c hg] at hgf
    cases hgf
  · rw [if_neg hg]
    by_cases hp : pausedCond e.focus e.hover e.drag = true
    · rw [if_pos hp]
      simp only [hq1, hq2, hq3]
      exact ⟨by linarith, fun _ => ⟨hp, trivial⟩, fun _ _ => by linarith⟩
    · rw [if_neg hp]
      simp only [hq1, hq2, hq3]
      exact ⟨le_refl _, fun hne => absurd rfl hne, fun hpc _ => absurd hpc hp⟩

lemma runClock_animOffset_mono (envs : List FrameEnv) (c : Clock) (hv : ValidTimes c envs) :
    c.animOffset ≤ (runClock c envs).animOffset := by
  induction envs generalizing c with
  | nil => simp [runClock]
  | cons e rest ih =>
    obtain ⟨ht, hrest⟩ := hv
    have hstep := (stepClock_animOffset e c ht).1
    have htail := ih (stepClock c e) hrest
    have hrun : runClock c (e :: rest) = runClock (stepClock c e) rest := rfl
    rw [hrun]
    exact le_trans hstep htail


/-- A frame at time `t` in which the focused card (index 0) is hovered, so
the pause condition holds. -/
def pauseEnv (t : ℚ) : FrameEnv :=
  { inp := inpAt t, focus := 0, cards := cards4, hover := [true, false, false, false],
    drag := dragIdle, mouse := mouseInit }

/-- C7 (amended): per frame with a monotone time input, `animOffset` never
decreases; when it changes, the pause condition (focused card hovered or
being the drag target) held and the increase is exactly
`elapsed - prevElapsed`; a gate-passing pause frame preserves the animator's
effective time `elapsed - animOffset`; and over any frame sequence with
monotone times, `animOffset` is monotone.  (The claim's stronger statement
that effective time stays constant across a whole pause fails when a
tick-gated-off frame falls inside the pause; see the counterexample.) -/
theorem animOffset_monotone_and_pause_transfer :
    (∀ (e : FrameEnv) (c : Clock), c.elapsed ≤ e.inp.t →
      c.animOffset ≤ (stepClock c e).animOffset ∧
      ((stepClock c e).animOffset ≠ c.animOffset →
        pausedCond e.focus e.hover e.drag = true ∧
        (stepClock c e).animOffset =
          c.animOffset + ((stepClock c e).elapsed - (stepClock c e).prevElapsed)) ∧
      (pausedCond e.focus e.hover e.drag = true →
        (frameStep e.inp e.focus e.cards e.hover e.drag e.mouse c).gated = false →
        (stepClock c e).elapsed - (stepClock c e).animOffset = c.elapsed - c.animOffset)) ∧
    (∀ (envs : List FrameEnv) (c : Clock), ValidTimes c envs →
      c.animOffset ≤ (runClock c envs).animOffset) :=
  ⟨stepClock_animOffset, runClock_animOffset_mono⟩

/-- C7 (counterexample): the claim says the effective time
`elapsed - animOffset` stays constant during a pause.  With the focused card
hovered on every frame (one unbroken pause) and frames at t = 10, 31 and
31.05 s, the effective time is 0 after the first frame but 21 after the
third: the middle frame advances `lastTick` (31 - 0 > tps = 30), is then cut
off by the tick gate, and advances `elapsed` by 21 s that `animOffset` never
absorbs — the pause-accrual only ever adds the last inter-frame gap. -/
theorem effective_time_advances_during_gated_pause :
    ((runClock clockInit [pauseEnv 10]).elapsed
      - (runClock clockInit [pauseEnv 10]).animOffset = 0) ∧
    ((runClock clockInit [pauseEnv 10, pauseEnv 31, pauseEnv (621/20)]).elapsed
      - (runClock clockInit [pauseEnv 10, pauseEnv 31, pauseEnv (621/20)]).animOffset = 21) ∧
    pausedCond 0 [true, false, false, false] dragIdle = true := by
  refine ⟨?_, ?_, by norm_num [pausedCond, dragIdle]⟩ <;>
    norm_num [runClock, stepClock, frameStep, clockTickCount, clockFrameUpdate, pauseEnv, inpAt,
      clockInit, dragIdle, mouseInit, cards4, pausedCond]

/-- C7 (witness): the amended theorem evaluated on a concrete paused frame:
`animOffset` does not decrease over the one-frame run, and the gate-passing
pause frame at t = 10 preserves the effective time. -/
theorem animOffset_pause_witness :
    clockInit.animOffset ≤ (runClock clockInit [pauseEnv 10]).animOffset ∧
    (stepClock clockInit (pauseEnv 10)).elapsed - (stepClock clockInit (pauseEnv 10)).animOffset
      = clockInit.elapsed - clockInit.animOffset := by
  have h := animOffset_monotone_and_pause_transfer
  refine ⟨h.2 [pauseEnv 10] clockInit ?_, ?_⟩
  · refine ⟨by norm_num [clockInit, pauseEnv, inpAt], trivial⟩
  · exact (h.1 (pauseEnv 10) clockInit (by norm_num [clockInit, pauseEnv, inpAt])).2.2
      (by norm_num [pausedCond, pauseEnv, dragIdle])
      (by norm_num [frameStep, clockTickCount, clockFrameUpdate, pauseEnv, inpAt, clockInit,
        dragIdle, mouseInit, cards4])

lemma frameStep_gated_iff (inp : FrameInput) (focus : ℕ) (cards : List CardType)
    (hover : List Bool) (drag : DragRef) (mouse : MouseRef) (c : Clock) :
    (frameStep inp focus cards hover drag mouse c).gated = true ↔
    ¬ ((clockTickCount inp (clockFrameUpdate inp c)).elapsed -
       (clockTickCount inp (clockFrameUpdate inp c)).lastTick ≥
       1 / (clockTickCount inp (clockFrameUpdate inp c)).tps) := by
  unfold frameStep
  by_cases hg : ¬ ((clockTickCount inp (clockFrameUpdate inp c)).elapsed -
      (clockTickCount inp (clockFrameUpdate inp c)).lastTick ≥
      1 / (clockTickCount inp (clockFrameUpdate inp c)).tps)
  · simp only [if_pos hg]
    simpa using hg
  · simp only [if_neg hg]
    simpa using hg

lemma frameStep_open_fields (inp : FrameInput) (focus : ℕ) (cards : List CardType)
    (hover : List Bool) (drag : DragRef) (mouse : MouseRef) (c : Clock)
    (hgate : (clockTickCount inp (clockFrameUpdate inp c)).elapsed -
      (clockTickCount inp (clockFrameUpdate inp c)).lastTick ≥
      1 / (clockTickCount inp (clockFrameUpdate inp c)).tps) :
    (frameStep inp focus cards hover drag mouse c).gated = false ∧
    (frameStep inp focus cards hover drag mouse c).paused = pausedCond focus hover drag ∧
    (frameStep inp focus cards hover drag mouse c).idleFocusWrite =
      (!(pausedCond focus hover drag) && decide (focus < cards.length)) ∧
    (frameStep inp focus cards hover drag mouse c).dragWrite =
      (if drag.dragging = true then
        match drag.i with
        | some k =>
          if k < cards.length then
            some (k, ((inp.mouseX * inp.viewportW) / 3, (inp.mouseY * inp.viewportH) / 3, (1 : ℚ)),
              dragTilt (0, 0, 0) drag 1 1)
          else none
        | none => none
      else none) ∧
    (frameStep inp focus cards hover drag mouse c).clock =
      (if pausedCond focus hover drag = true then
        { clockTickCount inp (clockFrameUpdate inp c) with
          animOffset := (clockTickCount inp (clockFrameUpdate inp c)).animOffset +
            ((clockTickCount inp (clockFrameUpdate inp c)).elapsed -
             (clockTickCount inp (clockFrameUpdate inp c)).prevElapsed) }
      else clockTickCount inp (clockFrameUpdate inp c)) := by
  unfold frameStep
  simp only [if_neg (not_not_intro hgate)]
  exact ⟨trivial, trivial, trivial, trivial, trivial⟩

/-- A drag of card 1 in progress (so the dragged card is not the focused
card 0). -/
def dragNonFocus : DragRef := { dragIdle with i := some 1, dragging := true, dragged := true }

/-- A drag of card 0 in progress while card 0 is focused. -/
def dragOnFocus : DragRef := { dragIdle with i := some 0, dragging := true, dragged := true }

/-- C6 (counterexample): the claim says that whenever a drag is in progress
(any dragged index) the focused card's idle-cycle animator is paused.  But
the pause condition is `focus === drag.i || hover[focus]`: dragging card 1
with focus 0 and nothing hovered, a gate-passing frame still writes the
idle-cycle target for the focused card. -/
theorem idle_cycle_runs_while_dragging_nonfocused :
    dragNonFocus.dragging = true ∧
    (frameStep (inpAt 1) 0 cards4 [false, false, false, false] dragNonFocus mouseInit
      clockInit).gated = false ∧
    (frameStep (inpAt 1) 0 cards4 [false, false, false, false] dragNonFocus mouseInit
      clockInit).idleFocusWrite = true := by
  refine ⟨rfl, ?_, ?_⟩ <;>
    norm_num [frameStep, clockTickCount, clockFrameUpdate, inpAt, clockInit, dragNonFocus,
      dragIdle, mouseInit, cards4, pausedCond]

/-- C6 (amended): on a gate-passing frame during a drag, the idle-cycle
animator is paused exactly when the dragged card is the focused one (or the
focus is hovered): if `drag.i = focus` then no idle-cycle target is written
for the focused card, the flip trigger cannot fire, and the pause offset
accrues; and for whatever card is dragged, its spring target is the pointer
projected into scene units via the viewport (divided by 3) at depth 1 with
rotation from `dragTilt`. -/
theorem drag_pauses_idle_only_for_focused_target (inp : FrameInput) (focus : ℕ)
    (cards : List CardType) (hover : List Bool) (drag : DragRef) (mouse : MouseRef) (c : Clock)
    (hd : drag.dragging = true)
    (hg : (frameStep inp focus cards hover drag mouse c).gated = false) :
    ((drag.i = some focus) →
      (frameStep inp focus cards hover drag mouse c).idleFocusWrite = false ∧
      ¬ frameFlipFires inp focus cards hover drag mouse c ∧
      (frameStep inp focus cards hover drag mouse c).clock.animOffset =
        c.animOffset + (inp.t - c.elapsed)) ∧
    (∀ k, drag.i = some k → k < cards.length →
      (frameStep inp focus cards hover drag mouse c).dragWrite =
        some (k, ((inp.mouseX * inp.viewportW) / 3, (inp.mouseY * inp.viewportH) / 3, 1),
          dragTilt (0, 0, 0) drag 1 1)) := by
  have hgate : (clockTickCount inp (clockFrameUpdate inp c)).elapsed -
      (clockTickCount inp (clockFrameUpdate inp c)).lastTick ≥
      1 / (clockTickCount inp (clockFrameUpdate inp c)).tps := by
    by_contra hn
    have hgt := (frameStep_gated_iff inp focus cards hover drag mouse c).mpr hn
    rw [hg] at hgt
    cases hgt
  obtain ⟨hgf, hpz, hidle, hdragw, hclock⟩ :=
    frameStep_open_fields inp focus cards hover drag mouse c hgate
  constructor
  · intro hfoc
    have hpaused : pausedCond focus hover drag = true := by
      simp [pausedCond, hfoc]
    refine ⟨?_, ?_, ?_⟩
    · rw [hidle, hpaused]
      rfl
    · intro hff
      unfold frameFlipFires at hff
      obtain ⟨hf1, hps, hf3⟩ := hff
      rw [hpz, hpaused] at hps
      cases hps
    · rw [hclock, if_pos hpaused]
      have h1 := clockFrameUpdate_fields inp c
      have h2 := clockTickCount_fields inp (clockFrameUpdate inp c)
      dsimp only
      rw [h2.2.2, h1.2.2, h2.1, h1.1, h2.2.1, h1.2.1]
  · intro k hk hklen
    rw [hdragw, if_pos hd, hk]
    dsimp only
    rw [if_pos hklen]

/-- C6 (witness): the amended theorem evaluated on a concrete frame dragging
the focused card 0: no idle write, no flip, and the drag write follows the
pointer projection with `dragTilt` rotation. -/
theorem drag_pause_witness :
    (frameStep (inpAt 1) 0 cards4 [false, false, false, false] dragOnFocus mouseInit
      clockInit).idleFocusWrite = false ∧
    (¬ frameFlipFires (inpAt 1) 0 cards4 [false, false, false, false] dragOnFocus mouseInit
      clockInit) ∧
    (frameStep (inpAt 1) 0 cards4 [false, false, false, false] dragOnFocus mouseInit
      clockInit).dragWrite =
      some (0, (((inpAt 1).mouseX * (inpAt 1).viewportW) / 3,
        ((inpAt 1).mouseY * (inpAt 1).viewportH) / 3, 1), dragTilt (0, 0, 0) dragOnFocus 1 1) := by
  have h := drag_pauses_idle_only_for_focused_target (inpAt 1) 0 cards4
    [false, false, false, false] dragOnFocus mouseInit clockInit rfl
    (by norm_num [frameStep, clockTickCount, clockFrameUpdate, inpAt, clockInit, dragOnFocus,
      dragIdle, mouseInit, cards4, pausedCond])
  exact ⟨(h.1 rfl).1, (h.1 rfl).2.1, h.2 0 rfl (by norm_num [cards4])⟩

lemma not_integral_of_pos_lt_one {x : ℝ} (h1 : 0 < x) (h2 : x < 1) : ¬ x = (⌊x⌋ : ℝ) := by
  intro hxeq
  have hfl : ⌊x⌋ = 0 := by
    rw [Int.floor_eq_zero_iff]
    exact ⟨le_of_lt h1, h2⟩
  rw [hfl] at hxeq
  norm_num at hxeq
  linarith

lemma nthDigit_eq_of_floor (ntn : ℕ) (x : ℝ) (z : ℤ) (hni : ¬ x = (⌊x⌋ : ℝ))
    (hz : ⌊|x| * 10 ^ (ntn + 1)⌋ = z) :
    nthDigit ntn x = some (z % 10) := by
  rw [nthDigit, if_neg hni, hz]

lemma nthDigit_some_elim (ntn : ℕ) (x : ℝ) (d : ℤ) (h : nthDigit ntn x = some d) :
    ¬ x = (⌊x⌋ : ℝ) ∧ ⌊|x| * 10 ^ (ntn + 1)⌋ % 10 = d := by
  by_cases hni : x = (⌊x⌋ : ℝ)
  · rw [nthDigit, if_pos hni] at h
    cases h
  · rw [nthDigit, if_neg hni] at h
    exact ⟨hni, Option.some.inj h⟩

lemma nthDigit_window (x : ℝ) (h0 : 0 < x) (hle : x ≤ 1)
    (h9 : nthDigit 0 x = some 9) (h1 : nthDigit 1 x = some 1) :
    91/100 ≤ x ∧ x < 92/100 := by
  obtain ⟨hni, h9f⟩ := nthDigit_some_elim 0 x 9 h9
  obtain ⟨_, h1f⟩ := nthDigit_some_elim 1 x 1 h1
  have hx1 : x < 1 := by
    rcases lt_or_eq_of_le hle with hlt | heq
    · exact hlt
    · exfalso
      apply hni
      rw [heq, Int.floor_one]
      norm_num
  have habs : |x| = x := abs_of_pos h0
  rw [habs] at h9f h1f
  have hp0 : (10 : ℝ) ^ (0 + 1) = 10 := by norm_num
  have hp1 : (10 : ℝ) ^ (1 + 1) = 100 := by norm_num
  rw [hp0] at h9f
  rw [hp1] at h1f
  have hf0nn : 0 ≤ ⌊x * 10⌋ := Int.floor_nonneg.mpr (by positivity)
  have hf0lt : ⌊x * 10⌋ < 10 := by
    rw [Int.floor_lt]
    push_cast
    nlinarith
  have hf0 : ⌊x * 10⌋ = 9 := by omega
  have hx09 : (9 : ℝ) ≤ x * 10 := by
    have h9le : (9 : ℤ) ≤ ⌊x * 10⌋ := by omega
    exact_mod_cast Int.le_floor.mp h9le
  have hf1nn : (90 : ℤ) ≤ ⌊x * 100⌋ := by
    rw [Int.le_floor]
    push_cast
    nlinarith
  have hf1lt : ⌊x * 100⌋ < 100 := by
    rw [Int.floor_lt]
    push_cast
    nlinarith
  have hf1 : ⌊x * 100⌋ = 91 := by omega
  have hlow : (91 : ℝ) ≤ x * 100 := by
    have h91le : (91 : ℤ) ≤ ⌊x * 100⌋ := by omega
    exact_mod_cast Int.le_floor.mp h91le
  have hhigh : x * 100 < 92 := by
    have h92 : ⌊x * 100⌋ < 92 := by omega
    have := Int.floor_lt.mp h92
    push_cast at this
    linarith
  constructor <;> linarith

lemma nthDigit_hundredths_zero_lt (x : ℝ) (habs : |x| ≤ 1)
    (h : nthDigit 1 x = some 0) : x < 91/100 := by
  obtain ⟨hni, hf⟩ := nthDigit_some_elim 1 x 0 h
  by_contra hge
  push_neg at hge
  have hxpos : (0 : ℝ) < x := by linarith
  have habsx : |x| = x := abs_of_pos hxpos
  rw [habsx] at habs hf
  have hx1 : x < 1 := by
    rcases lt_or_eq_of_le habs with hlt | heq
    · exact hlt
    · exfalso
      apply hni
      rw [heq]
      norm_num [Int.floor_one]
  have hp1 : (10 : ℝ) ^ (1 + 1) = 100 := by norm_num
  rw [hp1] at hf
  have hlo : (91 : ℤ) ≤ ⌊x * 100⌋ := by
    rw [Int.le_floor]
    push_cast
    nlinarith
  have hhi : ⌊x * 100⌋ < 100 := by
    rw [Int.floor_lt]
    push_cast
    nlinarith
  omega


lemma abs_sin_sub_sin_le (a b : ℝ) : |Real.sin a - Real.sin b| ≤ |a - b| := by
  rw [Real.sin_sub_sin]
  have hs : |Real.sin ((a - b) / 2)| ≤ |(a - b) / 2| := Real.abs_sin_le_abs
  have hc : |Real.cos ((a + b) / 2)| ≤ 1 := Real.abs_cos_le_one _
  have habs2 : |(a - b) / 2| = |a - b| / 2 := by
    rw [abs_div]
    norm_num
  calc |2 * Real.sin ((a - b) / 2) * Real.cos ((a + b) / 2)|
      = 2 * |Real.sin ((a - b) / 2)| * |Real.cos ((a + b) / 2)| := by
        rw [abs_mul, abs_mul]
        norm_num
    _ ≤ 2 * |(a - b) / 2| * 1 := by
        have h1 : (0:ℝ) ≤ 2 * |Real.sin ((a - b) / 2)| := by positivity
        have h2 : 2 * |Real.sin ((a - b) / 2)| ≤ 2 * |(a - b) / 2| := by linarith
        have h3 : (0:ℝ) ≤ |Real.cos ((a + b) / 2)| := abs_nonneg _
        nlinarith
    _ = |a - b| := by
        rw [habs2]
        ring

lemma sin_six_point_six_lt : Real.sin (33/5) < 91/100 := by
  have hper : Real.sin (33/5 - 2 * Real.pi) = Real.sin (33/5) := Real.sin_sub_two_pi _
  have hpigt := Real.pi_gt_d6
  have hpilt := Real.pi_lt_d6
  have hy0 : (0 : ℝ) < 33/5 - 2 * Real.pi := by norm_num at hpilt ⊢; linarith
  have hlt := Real.sin_lt hy0
  rw [hper] at hlt
  norm_num at hpigt
  linarith

lemma sin_near_peak_ge : 9999/10000 ≤ Real.sin (3927/500) := by
  have hpeak : Real.sin (5 * Real.pi / 2) = 1 := by
    have h : (5 : ℝ) * Real.pi / 2 = Real.pi / 2 + 2 * Real.pi := by ring
    rw [h, Real.sin_add_two_pi, Real.sin_pi_div_two]
  have hpigt := Real.pi_gt_d6
  have hpilt := Real.pi_lt_d6
  norm_num at hpigt hpilt
  have hdist : |(3927/500 : ℝ) - 5 * Real.pi / 2| ≤ 1/10000 := by
    rw [abs_le]
    constructor <;> linarith
  have hls := abs_sin_sub_sin_le (3927/500) (5 * Real.pi / 2)
  rw [hpeak] at hls
  have := abs_le.mp (le_trans hls hdist)
  linarith [this.1]

/-- C5 (counterexample): the oscillation can reach `cycle = 1` exactly (at
`elapsed = (π/2 + 2π)/0.33`, which is past the 5 s warm-up, with
`animOffset = 0`), and there `nthDigit(0, cycle)` faults: the decimal string
of 1 has no fractional part, so the source indexes into `undefined` and
throws, contradicting the claim that the digit extraction is fault-free even
at `cycle` exactly 1. -/
theorem nthDigit_faults_at_cycle_peak :
    (5 : ℝ) < (Real.pi / 2 + 2 * Real.pi) / (33/100) ∧
    cycleAt ((Real.pi / 2 + 2 * Real.pi) / (33/100)) 0 = 1 ∧
    0 < cycleAt ((Real.pi / 2 + 2 * Real.pi) / (33/100)) 0 ∧
    nthDigit 0 (cycleAt ((Real.pi / 2 + 2 * Real.pi) / (33/100)) 0) = none := by
  have hcy : cycleAt ((Real.pi / 2 + 2 * Real.pi) / (33/100)) 0 = 1 := by
    unfold cycleAt
    rw [sub_zero, div_mul_cancel₀ _ (by norm_num : (33/100 : ℝ) ≠ 0)]
    rw [Real.sin_add_two_pi, Real.sin_pi_div_two]
  refine ⟨?_, hcy, by rw [hcy]; norm_num, ?_⟩
  · rw [lt_div_iff₀ (by norm_num : (0:ℝ) < 33/100)]
    have := Real.pi_gt_three
    linarith
  · rw [hcy]
    rw [nthDigit, if_pos (by norm_num [Int.floor_one])]

/-- C5 (amended): for every cycle value in `[1e-6, 1)` — positive values
whose decimal string is plain (no exponent notation) and non-integral —
`nthDigit(0, cycle)` and `nthDigit(1, cycle)` are defined and fault-free.
The fault cases are exactly the values whose string has no decimal point:
`cycle = 1` (see the counterexample) and, in the source, tiny doubles
rendered in exponent notation. -/
theorem nthDigit_defined_on_plain_unit_range (x : ℝ) (h1 : 1/1000000 ≤ x) (h2 : x < 1) :
    (nthDigit 0 x).isSome = true ∧ (nthDigit 1 x).isSome = true := by
  have h0 : 0 < x := lt_of_lt_of_le (by norm_num) h1
  have hni := not_integral_of_pos_lt_one h0 h2
  constructor <;> (rw [nthDigit, if_neg hni]; rfl)

/-- C5 (witness): the amended theorem evaluated at `cycle = 1/2`. -/
theorem nthDigit_defined_witness :
    (nthDigit 0 (1/2 : ℝ)).isSome = true ∧ (nthDigit 1 (1/2 : ℝ)).isSome = true :=
  nthDigit_defined_on_plain_unit_range (1/2) (by norm_num) (by norm_num)


/-- C3 (counterexample): the flip trigger does not fire exactly once per
upward crossing of the designated phase point (`cycle` entering
`[0.91, 0.92)`): with `animOffset = 0` and consecutive frames at
`t = 20 s` (`cycle = sin 6.6 < 0.91`) and `t = 23.8 s`
(`cycle = sin 7.854 ≥ 0.9999 > 0.91`), the oscillation crosses the phase
point upward between the frames and the warm-up guard has passed, yet the
trigger does not fire: the sampled cycle lands past the `[0.91, 0.92)`
digit window. -/
theorem flip_trigger_misses_upward_crossing :
    cycleAt 20 0 < 91/100 ∧
    91/100 ≤ cycleAt (119/5) 0 ∧
    (5 : ℝ) < 119/5 ∧
    ¬ flipFires (119/5) 20 0 := by
  have h20 : cycleAt 20 0 = Real.sin (33/5) := by
    unfold cycleAt
    norm_num
  have h238 : cycleAt (119/5) 0 = Real.sin (3927/500) := by
    unfold cycleAt
    norm_num
  have hlow := sin_six_point_six_lt
  have hhigh := sin_near_peak_ge
  have hle1 : Real.sin (3927/500) ≤ 1 := Real.sin_le_one _
  refine ⟨by rw [h20]; linarith, by rw [h238]; linarith, by norm_num, ?_⟩
  rintro ⟨h5, hpos, h90, h91, hp0⟩
  rw [h238] at h91
  rcases lt_or_eq_of_le hle1 with hlt | heq
  · have hni : ¬ Real.sin (3927/500) = ((⌊Real.sin (3927/500)⌋ : ℤ) : ℝ) :=
      not_integral_of_pos_lt_one (by linarith) hlt
    have habs : |Real.sin (3927/500)| = Real.sin (3927/500) := abs_of_pos (by linarith)
    have hfl : ⌊|Real.sin (3927/500)| * 10 ^ (1 + 1)⌋ = 99 := by
      rw [habs]
      rw [Int.floor_eq_iff]
      constructor
      · push_cast
        norm_num
        nlinarith
      · push_cast
        norm_num
        nlinarith
    have := nthDigit_eq_of_floor 1 (Real.sin (3927/500)) 99 hni hfl
    rw [this] at h91
    norm_num at h91
  · rw [heq] at h91
    rw [nthDigit, if_pos (by norm_num [Int.floor_one])] at h91
    cases h91

/-- C3 (amended): whenever the flip trigger fires, the previous frame's
cycle was below 0.91 and the current cycle lies in `[0.91, 0.92)` — so the
trigger fires only at a sampled upward crossing of the designated phase
point, never on a downward crossing — and it can never fire again on the
immediately following frame (the new previous-cycle digit is 1, not 0), so
it fires at most once per crossing.  It can however miss an upward crossing
entirely (see the counterexample), so "exactly once per crossing" does not
hold. -/
theorem flip_fires_only_at_upward_crossing (e p a : ℝ) (h : flipFires e p a) :
    cycleAt p a < 91/100 ∧ 91/100 ≤ cycleAt e a ∧ cycleAt e a < 92/100 ∧
    ∀ e2, ¬ flipFires e2 e a := by
  obtain ⟨h5, hpos, h90, h91, hp0⟩ := h
  have hle1 : cycleAt e a ≤ 1 := Real.sin_le_one _
  have hwin := nthDigit_window (cycleAt e a) hpos hle1 h90 h91
  have habs : |cycleAt p a| ≤ 1 := Real.abs_sin_le_one _
  have hprev := nthDigit_hundredths_zero_lt (cycleAt p a) habs hp0
  refine ⟨hprev, hwin.1, hwin.2, fun e2 hff => ?_⟩
  obtain ⟨_, _, _, _, hpe⟩ := hff
  rw [h91] at hpe
  cases hpe

/-- C3 (witness): a concrete firing of the trigger, constructed with
`arcsin`: with `animOffset = 0`, frames at
`prevElapsed = (arcsin 0.905 + 2π)/0.33` (`prevCycle = 0.905`) and
`elapsed = (arcsin 0.915 + 2π)/0.33` (`cycle = 0.915`) satisfy `flipFires`,
and the amended theorem places the cycle values on an upward crossing. -/
theorem flip_upward_crossing_witness :
    flipFires ((Real.arcsin (183/200) + 2 * Real.pi) / (33/100))
      ((Real.arcsin (181/200) + 2 * Real.pi) / (33/100)) 0 ∧
    cycleAt ((Real.arcsin (181/200) + 2 * Real.pi) / (33/100)) 0 < 91/100 ∧
    91/100 ≤ cycleAt ((Real.arcsin (183/200) + 2 * Real.pi) / (33/100)) 0 := by
  have hE : cycleAt ((Real.arcsin (183/200) + 2 * Real.pi) / (33/100)) 0 = 183/200 := by
    unfold cycleAt
    rw [sub_zero, div_mul_cancel₀ _ (by norm_num : (33/100 : ℝ) ≠ 0)]
    rw [Real.sin_add_two_pi, Real.sin_arcsin (by norm_num) (by norm_num)]
  have hP : cycleAt ((Real.arcsin (181/200) + 2 * Real.pi) / (33/100)) 0 = 181/200 := by
    unfold cycleAt
    rw [sub_zero, div_mul_cancel₀ _ (by norm_num : (33/100 : ℝ) ≠ 0)]
    rw [Real.sin_add_two_pi, Real.sin_arcsin (by norm_num) (by norm_num)]
  have hfires : flipFires ((Real.arcsin (183/200) + 2 * Real.pi) / (33/100))
      ((Real.arcsin (181/200) + 2 * Real.pi) / (33/100)) 0 := by
    refine ⟨?_, ?_, ?_, ?_, ?_⟩
    · rw [lt_div_iff₀ (by norm_num : (0:ℝ) < 33/100)]
      have harc : 0 ≤ Real.arcsin (183/200) := Real.arcsin_nonneg.mpr (by norm_num)
      have := Real.pi_gt_three
      linarith
    · rw [hE]
      norm_num
    · rw [hE]
      have hni : ¬ (183/200 : ℝ) = ((⌊(183/200 : ℝ)⌋ : ℤ) : ℝ) :=
        not_integral_of_pos_lt_one (by norm_num) (by norm_num)
      have hfl : ⌊|(183/200 : ℝ)| * 10 ^ (0 + 1)⌋ = 9 := by
        rw [show |(183/200 : ℝ)| = 183/200 from abs_of_pos (by norm_num)]
        rw [Int.floor_eq_iff]; norm_num
      have := nthDigit_eq_of_floor 0 (183/200 : ℝ) 9 hni hfl
      rw [this]
      norm_num
    · rw [hE]
      have hni : ¬ (183/200 : ℝ) = ((⌊(183/200 : ℝ)⌋ : ℤ) : ℝ) :=
        not_integral_of_pos_lt_one (by norm_num) (by norm_num)
      have hfl : ⌊|(183/200 : ℝ)| * 10 ^ (1 + 1)⌋ = 91 := by
        rw [show |(183/200 : ℝ)| = 183/200 from abs_of_pos (by norm_num)]
        rw [Int.floor_eq_iff]; norm_num
      have := nthDigit_eq_of_floor 1 (183/200 : ℝ) 91 hni hfl
      rw [this]
      norm_num
    · rw [hP]
      have hni : ¬ (181/200 : ℝ) = ((⌊(181/200 : ℝ)⌋ : ℤ) : ℝ) :=
        not_integral_of_pos_lt_one (by norm_num) (by norm_num)
      have hfl : ⌊|(181/200 : ℝ)| * 10 ^ (1 + 1)⌋ = 90 := by
        rw [show |(181/200 : ℝ)| = 181/200 from abs_of_pos (by norm_num)]
        rw [Int.floor_eq_iff]; norm_num
      have := nthDigit_eq_of_floor 1 (181/200 : ℝ) 90 hni hfl
      rw [this]
      norm_num
  have h := flip_fires_only_at_upward_crossing _ _ _ hfires
  exact ⟨hfires, h.1, h.2.1⟩

end Cards
